import Mathlib

/-!
Shallow embedding of the Site Suitability Tool (`WeightedSumModel.py`):
memory-bounded raster ingestion, weight validation, weighted-sum
aggregation with numpy broadcasting semantics, and georeferenced export.
Grid cell values (numpy float32 in the source) are modelled as exact
rationals; numpy 2-D arrays become a shape-carrying structure over
`List (List ℚ)`.
-/

set_option autoImplicit false

deriving instance DecidableEq for Except

namespace SitingTool

/-- A 2-D numpy array of float32 as held in `raster_data`: a shape
`(rows, cols)` together with row-major data. -/
structure NDGrid where
  rows : Nat
  cols : Nat
  data : List (List ℚ)
deriving DecidableEq, Repr

/-- Element access `a[i][j]`, with 0 as the out-of-range default (numpy
arrays are always rectangular and in-range, so the default is never hit
on well-formed input). -/
def getCell (g : NDGrid) (i j : Nat) : ℚ :=
  (g.data.getD i []).getD j 0

/-- `np.zeros(shape, dtype=np.float32)` — the zero-initialized accumulator
of line 63. -/
def zeros (r c : Nat) : NDGrid :=
  ⟨r, c, List.replicate r (List.replicate c 0)⟩

/-- `weights[layer_name] * data` — scalar times array, elementwise. -/
def scalarMul (w : ℚ) (g : NDGrid) : NDGrid :=
  ⟨g.rows, g.cols, g.data.map (fun row => row.map (fun x => w * x))⟩

/-- numpy's condition for the in-place `combined_array += rhs` of line 66
to succeed: each dimension of `rhs` equals the accumulator's or is 1
(broadcasting); otherwise numpy raises a ValueError. -/
def inplaceCompatible (acc rhs : NDGrid) : Prop :=
  (rhs.rows = acc.rows ∨ rhs.rows = 1) ∧ (rhs.cols = acc.cols ∨ rhs.cols = 1)

instance instDecidableInplaceCompatible (acc rhs : NDGrid) :
    Decidable (inplaceCompatible acc rhs) :=
  inferInstanceAs (Decidable ((rhs.rows = acc.rows ∨ rhs.rows = 1) ∧ (rhs.cols = acc.cols ∨ rhs.cols = 1)))

/-- The in-place broadcasting addition `combined_array += rhs`: a size-1
dimension of `rhs` is stretched across the accumulator's extent. -/
def addBroadcast (acc rhs : NDGrid) : NDGrid :=
  ⟨acc.rows, acc.cols,
    (List.range acc.rows).map fun i =>
      (List.range acc.cols).map fun j =>
        getCell acc i j +
          getCell rhs (if rhs.rows = 1 then 0 else i) (if rhs.cols = 1 then 0 else j)⟩

/-- Python dict lookup `weights[layer_name]` (first binding wins; a dict
has unique keys). -/
def dlookup : List (String × ℚ) → String → Option ℚ
  | [], _ => none
  | (k, v) :: rest, key => if k = key then some v else dlookup rest key

/-- Ways the aggregation loop of lines 62-66 can raise. -/
inductive AggError where
  /-- `next(iter(raster_data.values()))` on an empty dict (unreachable:
  line 42 guards on `if raster_data:`). -/
  | emptyStore
  /-- `weights[layer_name]` raises KeyError. -/
  | missingWeight (name : String)
  /-- numpy refuses the in-place broadcast on `+=`. -/
  | broadcastMismatch
deriving DecidableEq, Repr

/-- The accumulation loop of lines 65-66:
`for layer_name, data in raster_data.items(): combined_array += weights[layer_name] * data`. -/
def aggLoop (weights : List (String × ℚ)) :
    NDGrid → List (String × NDGrid) → Except AggError NDGrid
  | acc, [] => .ok acc
  | acc, (layerName, data) :: rest =>
    match dlookup weights layerName with
    | none => .error (.missingWeight layerName)
    | some w =>
      let rhs := scalarMul w data
      if inplaceCompatible acc rhs then aggLoop weights (addBroadcast acc rhs) rest
      else .error .broadcastMismatch

/-- Lines 62-66: shape is taken from the first raster in insertion order,
a float32 zero accumulator of that shape is allocated, and each weighted
layer is added in place. -/
def aggregate (store : List (String × NDGrid)) (weights : List (String × ℚ)) :
    Except AggError NDGrid :=
  match store with
  | [] => .error .emptyStore
  | first :: _ => aggLoop weights (zeros first.2.rows first.2.cols) store

/-- np.isclose default relative tolerance. -/
def RTOL : ℚ := 1 / 100000

/-- np.isclose default absolute tolerance. -/
def ATOL : ℚ := 1 / 100000000

/-- `np.isclose(s, 1.0)`: `|s - 1.0| <= atol + rtol * |1.0|`. -/
def npIscloseOne (s : ℚ) : Bool :=
  decide (|s - 1| ≤ ATOL + RTOL * 1)

/-- `sum(weights.values())`. -/
def sumWeights (weights : List (String × ℚ)) : ℚ :=
  (weights.map (fun p => p.2)).sum

/-- The only way the weight gate of lines 54-58 rejects an assignment. -/
inductive ValidationError where
  | normalizationError
deriving DecidableEq, Repr

/-- Lines 54-58: the weight assignment passes (aggregation may proceed)
exactly when `np.isclose(sum(weights.values()), 1.0)`; otherwise the
user is warned and the Calculate button does nothing. -/
def validate (weights : List (String × ℚ)) : Except ValidationError Unit :=
  if npIscloseOne (sumWeights weights) then .ok () else .error .normalizationError

/-- `st.number_input(..., min_value=0.0, max_value=1.0, value=default)` of
lines 48-50: the widget never yields a value outside `[min, max]` — an
entered value is clamped to the bounds, and with no entry the default is
used. -/
def numberInput (minV maxV default : ℚ) (entered : Option ℚ) : ℚ :=
  match entered with
  | none => default
  | some x => min maxV (max minV x)

/-- The per-layer default weight `1.0 / len(raster_data)` of line 49. -/
def defaultWeight (n : Nat) : ℚ := 1 / n

/-- The weight dict built by lines 46-51 when the user keeps every
default. -/
def defaultWeights (store : List (String × NDGrid)) : List (String × ℚ) :=
  store.map (fun p => (p.1, defaultWeight store.length))

/-- rasterio's per-source spatial metadata (`src.meta`): the fields the
export step copies and selectively overrides. The core treats everything
except `dtype` and `count` as opaque. -/
structure SpatialMeta where
  driver : String
  dtype : String
  nodata : Option ℚ
  width : Nat
  height : Nat
  count : Nat
  crs : String
  transform : List ℚ
deriving DecidableEq, Repr

/-- An uploaded source as the external rasterio collaborator sees it:
`content` is `some (grid, meta)` when the bytes decode as a single-band
raster (band 1 read as float32), `none` when decoding raises. -/
structure UploadedFile where
  name : String
  content : Option (NDGrid × SpatialMeta)
deriving DecidableEq, Repr

/-- `load_raster(file)` of lines 12-18: returns band 1 as float32, or
raises carrying the failing source's identifier. -/
def load_raster (file : UploadedFile) : Except String NDGrid :=
  match file.content with
  | some (g, _) => .ok g
  | none => .error file.name

/-- Python dict assignment `raster_data[file.name] = data`: overwrite in
place when the key exists, append otherwise. -/
def dictInsert (store : List (String × NDGrid)) (k : String) (v : NDGrid) :
    List (String × NDGrid) :=
  if store.any (fun p => decide (p.1 = k)) then
    store.map (fun p => if p.1 = k then (k, v) else p)
  else store ++ [(k, v)]

/-- The upload loop of lines 31-37: each file is tried in order; a
success is stored under `file.name`, a failure is reported (the error
list) and the loop continues with the remaining files. -/
def loadLoop :
    List (String × NDGrid) → List String → List UploadedFile →
      List (String × NDGrid) × List String
  | store, errs, [] => (store, errs)
  | store, errs, f :: rest =>
    match load_raster f with
    | .ok g => loadLoop (dictInsert store f.name g) errs rest
    | .error badName => loadLoop store (errs ++ [badName]) rest

/-- Running the upload loop on a fresh session: empty store, no errors. -/
def loadBatch (files : List UploadedFile) : List (String × NDGrid) × List String :=
  loadLoop [] [] files

/-- The exportable payload: combined grid plus adjusted metadata. -/
structure ExportPayload where
  meta : SpatialMeta
  grid : NDGrid
deriving DecidableEq, Repr

/-- Lines 89-93: `meta = ref.meta.copy(); meta.update(dtype=rasterio.float32, count=1)`
and the combined array is paired with the result. -/
def prepareExport (refMeta : SpatialMeta) (combined : NDGrid) : ExportPayload :=
  ⟨{ refMeta with dtype := "float32", count := 1 }, combined⟩

/-- Ways the download step of lines 86-96 can fail. -/
inductive ExportError where
  | noFiles
  /-- `rasterio.open(uploaded_files[0])` raises; the exception is caught
  and reported at lines 95-96. -/
  | metadataUnavailable (name : String)
deriving DecidableEq, Repr

/-- Lines 86-96: the reference metadata is read from `uploaded_files[0]`
— the first file in upload order — never from the loaded layer store; if
that file does not decode, the export fails with the reported error. -/
def exportStep (files : List UploadedFile) (combined : NDGrid) :
    Except ExportError ExportPayload :=
  match files with
  | [] => .error .noFiles
  | f :: _ =>
    match f.content with
    | none => .error (.metadataUnavailable f.name)
    | some (_, m) => .ok (prepareExport m combined)

/-- C6 scenario layer A. -/
def layerA : NDGrid := ⟨2, 2, [[1, 2], [3, 4]]⟩

/-- C6 scenario layer B. -/
def layerB : NDGrid := ⟨2, 2, [[4, 3], [2, 1]]⟩

/-- A 1×1 piece of concrete spatial metadata used by witnesses. -/
def sampleMeta : SpatialMeta :=
  ⟨"GTiff", "uint8", none, 2, 2, 1, "EPSG:4326", [1, 0, 0, 0, 1, 0]⟩

end SitingTool

namespace SitingTool

@[simp]
theorem scalarMul_rows (w : ℚ) (g : NDGrid) : (scalarMul w g).rows = g.rows := rfl

@[simp]
theorem scalarMul_cols (w : ℚ) (g : NDGrid) : (scalarMul w g).cols = g.cols := rfl

@[simp]
theorem addBroadcast_rows (acc rhs : NDGrid) : (addBroadcast acc rhs).rows = acc.rows := rfl

@[simp]
theorem addBroadcast_cols (acc rhs : NDGrid) : (addBroadcast acc rhs).cols = acc.cols := rfl

theorem getD_map_mul (w : ℚ) (row : List ℚ) (j : Nat) :
    (row.map (fun x => w * x)).getD j 0 = w * row.getD j 0 := by
  induction row generalizing j with
  | nil => simp
  | cons a l ih =>
    cases j with
    | zero => simp
    | succ j => simpa using ih j

theorem getCell_scalarMul (w : ℚ) (g : NDGrid) (i j : Nat) :
    getCell (scalarMul w g) i j = w * getCell g i j := by
  show ((g.data.map (fun row => row.map (fun x => w * x))).getD i []).getD j 0 =
    w * ((g.data.getD i []).getD j 0)
  induction g.data generalizing i with
  | nil => simp
  | cons r l ih =>
    cases i with
    | zero => simpa using getD_map_mul w r j
    | succ i => simpa using ih i

theorem getD_replicate_zero (c j : Nat) : (List.replicate c (0 : ℚ)).getD j 0 = 0 := by
  induction c generalizing j with
  | zero => simp
  | succ c ih =>
    cases j with
    | zero => simp [List.replicate_succ]
    | succ j => simp [List.replicate_succ, ih j]

theorem getCell_zeros (r c i j : Nat) : getCell (zeros r c) i j = 0 := by
  show ((List.replicate r (List.replicate c (0:ℚ))).getD i []).getD j 0 = 0
  induction r generalizing i with
  | zero => simp
  | succ r ih =>
    cases i with
    | zero => simp [List.replicate_succ, getD_replicate_zero c j]
    | succ i => simpa [List.replicate_succ] using ih i

theorem getD_range_map {α : Type} (f : Nat → α) (d : α) (n i : Nat) (h : i < n) :
    ((List.range n).map f).getD i d = f i := by
  rw [List.getD_eq_getElem?_getD, List.getElem?_map, List.getElem?_range h]
  rfl

theorem getCell_addBroadcast (acc rhs : NDGrid) (i j : Nat)
    (hi : i < acc.rows) (hj : j < acc.cols) :
    getCell (addBroadcast acc rhs) i j =
      getCell acc i j +
        getCell rhs (if rhs.rows = 1 then 0 else i) (if rhs.cols = 1 then 0 else j) := by
  show (((List.range acc.rows).map fun i =>
      (List.range acc.cols).map fun j =>
        getCell acc i j +
          getCell rhs (if rhs.rows = 1 then 0 else i)
            (if rhs.cols = 1 then 0 else j)).getD i []).getD j 0 = _
  rw [getD_range_map _ _ _ _ hi, getD_range_map _ _ _ _ hj]

/-- The accumulation loop computes, at each in-range cell, the running
value plus the weighted sum of the remaining layers, provided every
remaining layer matches the accumulator's shape and has a weight. -/
theorem aggLoop_linear (weights : List (String × ℚ)) :
    ∀ (store : List (String × NDGrid)) (acc : NDGrid),
      (∀ p ∈ store, p.2.rows = acc.rows ∧ p.2.cols = acc.cols) →
      (∀ p ∈ store, (dlookup weights p.1).isSome) →
      ∃ g, aggLoop weights acc store = .ok g ∧
        g.rows = acc.rows ∧ g.cols = acc.cols ∧
        ∀ i j, i < acc.rows → j < acc.cols →
          getCell g i j =
            getCell acc i j +
              (store.map (fun p => (dlookup weights p.1).getD 0 * getCell p.2 i j)).sum := by
  intro store
  induction store with
  | nil =>
    intro acc _ _
    exact ⟨acc, rfl, rfl, rfl, by simp⟩
  | cons hd tl ih =>
    obtain ⟨name, d⟩ := hd
    intro acc hsh hcov
    obtain ⟨w, hw⟩ :=
      Option.isSome_iff_exists.mp (hcov (name, d) (List.mem_cons_self _ _))
    obtain ⟨hrows, hcols⟩ := hsh (name, d) (List.mem_cons_self _ _)
    have hcompat : inplaceCompatible acc (scalarMul w d) :=
      ⟨Or.inl hrows, Or.inl hcols⟩
    have hstep : aggLoop weights acc ((name, d) :: tl) =
        aggLoop weights (addBroadcast acc (scalarMul w d)) tl := by
      simp only [aggLoop, hw, if_pos hcompat]
    obtain ⟨g, hok, hgr, hgc, hcells⟩ :=
      ih (addBroadcast acc (scalarMul w d))
        (fun p hp => hsh p (List.mem_cons_of_mem _ hp))
        (fun p hp => hcov p (List.mem_cons_of_mem _ hp))
    refine ⟨g, by rw [hstep]; exact hok, hgr, hgc, fun i j hi hj => ?_⟩
    have hcl := hcells i j hi hj
    rw [getCell_addBroadcast acc (scalarMul w d) i j hi hj] at hcl
    have hi' : (if (scalarMul w d).rows = 1 then 0 else i) = i := by
      by_cases h1 : d.rows = 1
      · have hacc : acc.rows = 1 := by rw [← hrows, h1]
        have : i = 0 := Nat.lt_one_iff.mp (hacc ▸ hi)
        simp [h1, this]
      · simp [h1]
    have hj' : (if (scalarMul w d).cols = 1 then 0 else j) = j := by
      by_cases h1 : d.cols = 1
      · have hacc : acc.cols = 1 := by rw [← hcols, h1]
        have : j = 0 := Nat.lt_one_iff.mp (hacc ▸ hj)
        simp [h1, this]
      · simp [h1]
    rw [hi', hj', getCell_scalarMul] at hcl
    rw [hcl, List.map_cons, List.sum_cons, hw]
    simp only [Option.getD_some]
    ring

/-- The accumulation loop succeeds exactly when every remaining layer can
broadcast in place onto the accumulator (given every layer has a weight). -/
theorem aggLoop_ok_iff (weights : List (String × ℚ)) :
    ∀ (store : List (String × NDGrid)) (acc : NDGrid),
      (∀ p ∈ store, (dlookup weights p.1).isSome) →
      ((∃ g, aggLoop weights acc store = .ok g) ↔
        ∀ p ∈ store, inplaceCompatible acc p.2) := by
  intro store
  induction store with
  | nil =>
    intro acc _
    simp [aggLoop]
  | cons hd tl ih =>
    obtain ⟨name, d⟩ := hd
    intro acc hcov
    obtain ⟨w, hw⟩ :=
      Option.isSome_iff_exists.mp (hcov (name, d) (List.mem_cons_self _ _))
    have hcompat_iff : inplaceCompatible acc (scalarMul w d) ↔ inplaceCompatible acc d :=
      Iff.rfl
    by_cases hc : inplaceCompatible acc (scalarMul w d)
    · have hstep : aggLoop weights acc ((name, d) :: tl) =
          aggLoop weights (addBroadcast acc (scalarMul w d)) tl := by
        simp only [aggLoop, hw, if_pos hc]
      have hsame : ∀ p : String × NDGrid,
          inplaceCompatible (addBroadcast acc (scalarMul w d)) p.2 ↔
            inplaceCompatible acc p.2 := fun p => Iff.rfl
      rw [hstep, ih (addBroadcast acc (scalarMul w d))
        (fun p hp => hcov p (List.mem_cons_of_mem _ hp))]
      constructor
      · intro h p hp
        rcases List.mem_cons.mp hp with rfl | hp'
        · exact hcompat_iff.mp hc
        · exact (hsame p).mp (h p hp')
      · intro h p hp
        exact (hsame p).mpr (h p (List.mem_cons_of_mem _ hp))
    · have hstep : aggLoop weights acc ((name, d) :: tl) = .error .broadcastMismatch := by
        simp only [aggLoop, hw, if_neg hc]
      rw [hstep]
      constructor
      · intro h
        obtain ⟨g, hg⟩ := h
        exact absurd hg (by simp)
      · intro h
        exact absurd (hcompat_iff.mpr (h (name, d) (List.mem_cons_self _ _))) hc

/-- C6: two layers A=[[1,2],[3,4]], B=[[4,3],[2,1]] with weights 0.5 and
0.5 aggregate to [[2.5,2.5],[2.5,2.5]]. -/
theorem aggregate_concrete_scenario :
    aggregate [("A", layerA), ("B", layerB)] [("A", 1/2), ("B", 1/2)] =
      .ok ⟨2, 2, [[5/2, 5/2], [5/2, 5/2]]⟩ := by
  simp [aggregate, aggLoop, dlookup, inplaceCompatible, scalarMul, addBroadcast,
    getCell, zeros, layerA, layerB, List.range_succ]
  norm_num

/-- C3: the weight gate rejects with the normalization error exactly when
`|sum(weights) - 1.0|` exceeds the np.isclose tolerance `atol + rtol*|1.0|`,
accepts exactly when it is within tolerance, and the concrete assignment
`{A: 0.3, B: 0.3}` (sum 0.6) is rejected. -/
theorem validate_normalization_spec :
    (∀ weights : List (String × ℚ),
        validate weights = .error .normalizationError ↔
          ATOL + RTOL * 1 < |sumWeights weights - 1|) ∧
    (∀ weights : List (String × ℚ),
        validate weights = .ok () ↔ |sumWeights weights - 1| ≤ ATOL + RTOL * 1) ∧
    validate [("A", 3/10), ("B", 3/10)] = .error .normalizationError := by
  refine ⟨fun weights => ?_, fun weights => ?_, ?_⟩
  · unfold validate npIscloseOne
    rcases le_or_lt |sumWeights weights - 1| (ATOL + RTOL * 1) with h | h
    · simp [h, not_lt.mpr h]
    · simp [h, not_le.mpr h]
  · unfold validate npIscloseOne
    rcases le_or_lt |sumWeights weights - 1| (ATOL + RTOL * 1) with h | h
    · simp [h]
    · simp [h, not_le.mpr h]
  · unfold validate npIscloseOne sumWeights ATOL RTOL
    norm_num
    intro h
    rw [abs_of_nonneg (by norm_num : (0:ℚ) ≤ 2/5)] at h
    norm_num at h

/-- C4 counterexample: the weight gate performs no range check — the
assignment `{A: 1.5, B: -0.5}` contains a weight greater than 1 (and one
less than 0) yet passes validation, because its sum is exactly 1. -/
theorem validate_no_range_check :
    (1 : ℚ) < 3/2 ∧ (-1/2 : ℚ) < 0 ∧
      validate [("A", 3/2), ("B", -1/2)] = .ok () := by
  refine ⟨by norm_num, by norm_num, ?_⟩
  unfold validate npIscloseOne sumWeights ATOL RTOL
  norm_num

/-- C4 amended: range enforcement lives in the input widget, not in
validation — for every layer count `n ≥ 1`, whatever the user enters (or
does not enter, leaving the default `1/n`), the weight produced by the
number input with bounds `[0.0, 1.0]` lies in `[0.0, 1.0]`. -/
theorem number_input_clamps_range (n : Nat) (hn : 1 ≤ n) (entered : Option ℚ) :
    0 ≤ numberInput 0 1 (defaultWeight n) entered ∧
      numberInput 0 1 (defaultWeight n) entered ≤ 1 := by
  unfold numberInput defaultWeight
  match entered with
  | none =>
    constructor
    · positivity
    · rw [div_le_one (by exact_mod_cast hn)]
      exact_mod_cast hn
  | some x =>
    constructor
    · simp [le_min_iff, le_max_iff]
    · exact min_le_left _ _

/-- Witness for the amended C4 theorem at `n = 2` with an entered value. -/
theorem number_input_clamps_range_witness :
    0 ≤ numberInput 0 1 (defaultWeight 2) (some 5) ∧
      numberInput 0 1 (defaultWeight 2) (some 5) ≤ 1 :=
  number_input_clamps_range 2 (by norm_num) (some 5)

/-- C2 counterexample: layers of shapes (2,2) and (1,2) differ in
`(rows, cols)`, yet aggregation raises nothing — numpy broadcasts the
(1,2) layer across both rows and returns a combined grid. -/
theorem aggregate_shape_counterexample :
    (¬ ((⟨1, 2, [[1, 1]]⟩ : NDGrid).rows = (⟨2, 2, [[1, 1], [1, 1]]⟩ : NDGrid).rows ∧
        (⟨1, 2, [[1, 1]]⟩ : NDGrid).cols = (⟨2, 2, [[1, 1], [1, 1]]⟩ : NDGrid).cols)) ∧
    aggregate [("A", ⟨2, 2, [[1, 1], [1, 1]]⟩), ("B", ⟨1, 2, [[1, 1]]⟩)]
        [("A", 1/2), ("B", 1/2)] =
      .ok ⟨2, 2, [[1, 1], [1, 1]]⟩ := by
  constructor
  · simp
  · simp [aggregate, aggLoop, dlookup, inplaceCompatible, scalarMul, addBroadcast,
      getCell, zeros, List.range_succ]
    norm_num

/-- C8: the export payload copies the reference metadata, overriding only
the data type (to float32) and the band count (to 1); every other field
is forwarded unchanged, and the payload carries the combined grid. -/
theorem prepare_export_meta_spec (m : SpatialMeta) (g : NDGrid) :
    (prepareExport m g).meta.dtype = "float32" ∧
    (prepareExport m g).meta.count = 1 ∧
    (prepareExport m g).meta.driver = m.driver ∧
    (prepareExport m g).meta.nodata = m.nodata ∧
    (prepareExport m g).meta.width = m.width ∧
    (prepareExport m g).meta.height = m.height ∧
    (prepareExport m g).meta.crs = m.crs ∧
    (prepareExport m g).meta.transform = m.transform ∧
    (prepareExport m g).grid = g := by
  exact ⟨rfl, rfl, rfl, rfl, rfl, rfl, rfl, rfl, rfl⟩

/-- C1: for a nonempty store of equal-shape layers whose names are all
covered by the weight assignment, aggregation succeeds and the combined
grid at each in-range cell `(i,j)` is the sum over the layers of
`weight * grid[i][j]` (float32 arithmetic modelled as exact rationals,
so the zero-initialized accumulator with one in-place weighted addition
per layer realises that sum exactly). -/
theorem aggregate_linear_spec (first : String × NDGrid) (rest : List (String × NDGrid))
    (weights : List (String × ℚ))
    (hsh : ∀ p ∈ first :: rest, p.2.rows = first.2.rows ∧ p.2.cols = first.2.cols)
    (hcov : ∀ p ∈ first :: rest, (dlookup weights p.1).isSome) :
    ∃ g, aggregate (first :: rest) weights = .ok g ∧
      ∀ i j, i < first.2.rows → j < first.2.cols →
        getCell g i j =
          ((first :: rest).map
            (fun p => (dlookup weights p.1).getD 0 * getCell p.2 i j)).sum := by
  obtain ⟨g, hok, _, _, hcells⟩ :=
    aggLoop_linear weights (first :: rest) (zeros first.2.rows first.2.cols) hsh hcov
  refine ⟨g, hok, fun i j hi hj => ?_⟩
  rw [hcells i j hi hj, getCell_zeros, zero_add]

/-- Witness for C1: two 1×2 layers with weights 1/4 and 3/4. -/
theorem aggregate_linear_spec_witness :
    ∃ g, aggregate [("A", ⟨1, 2, [[2, 4]]⟩), ("B", ⟨1, 2, [[6, 8]]⟩)]
        [("A", 1/4), ("B", 3/4)] = .ok g ∧
      ∀ i j, i < (("A", (⟨1, 2, [[2, 4]]⟩ : NDGrid))).2.rows →
        j < (("A", (⟨1, 2, [[2, 4]]⟩ : NDGrid))).2.cols →
        getCell g i j =
          (([("A", (⟨1, 2, [[2, 4]]⟩ : NDGrid)), ("B", ⟨1, 2, [[6, 8]]⟩)]).map
            (fun p => (dlookup [("A", 1/4), ("B", 3/4)] p.1).getD 0 * getCell p.2 i j)).sum :=
  aggregate_linear_spec ("A", ⟨1, 2, [[2, 4]]⟩) [("B", ⟨1, 2, [[6, 8]]⟩)]
    [("A", 1/4), ("B", 3/4)] (by decide) (by decide)

/-- C2 amended: with every layer's weight present, aggregation succeeds
exactly when each layer's shape can broadcast in place onto the first
layer's shape — each dimension equal to the first layer's or equal to 1.
In particular all-equal shapes always succeed, truly incompatible shapes
always raise, but differing broadcast-compatible shapes succeed silently
instead of raising a shape error. -/
theorem aggregate_broadcast_spec (first : String × NDGrid) (rest : List (String × NDGrid))
    (weights : List (String × ℚ))
    (hcov : ∀ p ∈ first :: rest, (dlookup weights p.1).isSome) :
    (∃ g, aggregate (first :: rest) weights = .ok g) ↔
      ∀ p ∈ first :: rest,
        (p.2.rows = first.2.rows ∨ p.2.rows = 1) ∧
          (p.2.cols = first.2.cols ∨ p.2.cols = 1) :=
  aggLoop_ok_iff weights (first :: rest) (zeros first.2.rows first.2.cols) hcov

/-- Witness for the amended C2 theorem: a (2,2) layer with a (1,2) layer. -/
theorem aggregate_broadcast_spec_witness :
    (∃ g, aggregate [("A", (⟨2, 2, [[1, 1], [1, 1]]⟩ : NDGrid)),
        ("B", (⟨1, 2, [[1, 1]]⟩ : NDGrid))] [("A", 1/2), ("B", 1/2)] = .ok g) ↔
      ∀ p ∈ [("A", (⟨2, 2, [[1, 1], [1, 1]]⟩ : NDGrid)),
          ("B", (⟨1, 2, [[1, 1]]⟩ : NDGrid))],
        (p.2.rows = (("A", (⟨2, 2, [[1, 1], [1, 1]]⟩ : NDGrid))).2.rows ∨ p.2.rows = 1) ∧
          (p.2.cols = (("A", (⟨2, 2, [[1, 1], [1, 1]]⟩ : NDGrid))).2.cols ∨ p.2.cols = 1) :=
  aggregate_broadcast_spec ("A", ⟨2, 2, [[1, 1], [1, 1]]⟩) [("B", ⟨1, 2, [[1, 1]]⟩)]
    [("A", 1/2), ("B", 1/2)] (by decide)

theorem sum_single_weight (weights : List (String × ℚ)) (k : String) (gk : NDGrid)
    (i j : Nat) :
    ∀ l : List (String × NDGrid),
      (l.map Prod.fst).Nodup →
      (k, gk) ∈ l →
      dlookup weights k = some 1 →
      (∀ p ∈ l, p.1 ≠ k → dlookup weights p.1 = some 0) →
      (l.map (fun p => (dlookup weights p.1).getD 0 * getCell p.2 i j)).sum =
        getCell gk i j := by
  intro l
  induction l with
  | nil => intro _ h; simp at h
  | cons hd tl ih =>
    intro hnd hmem hwk hw0
    rw [List.map_cons] at hnd
    obtain ⟨hnotin, hndtl⟩ := List.nodup_cons.mp hnd
    rw [List.map_cons, List.sum_cons]
    rcases List.mem_cons.mp hmem with heq | hmem'
    · have hhd1 : hd.1 = k := by rw [← heq]
      have hhd2 : hd.2 = gk := by rw [← heq]
      have hknotin : k ∉ tl.map Prod.fst := hhd1 ▸ hnotin
      have htl0 : (tl.map (fun p => (dlookup weights p.1).getD 0 * getCell p.2 i j)).sum = 0 := by
        apply List.sum_eq_zero
        intro x hx
        obtain ⟨p, hp, hpx⟩ := List.mem_map.mp hx
        have hpk : p.1 ≠ k := by
          intro hcontra
          exact hknotin (hcontra ▸ List.mem_map_of_mem Prod.fst hp)
        rw [← hpx, hw0 p (List.mem_cons_of_mem _ hp) hpk]
        simp
      rw [htl0, hhd1, hhd2, hwk]
      simp
    · have hhd1 : hd.1 ≠ k := by
        intro hcontra
        exact hnotin (by rw [hcontra]; exact List.mem_map_of_mem Prod.fst hmem')
      rw [hw0 hd (List.mem_cons_self _ _) hhd1]
      rw [ih hndtl hmem' hwk (fun p hp => hw0 p (List.mem_cons_of_mem _ hp))]
      simp

/-- C5: with every layer the same shape, pairwise-distinct layer names,
weight 1.0 on exactly one layer and 0.0 on all others, aggregation
succeeds and the combined grid equals the distinguished layer's grid
cell for cell. -/
theorem aggregate_identity_weight (first : String × NDGrid) (rest : List (String × NDGrid))
    (weights : List (String × ℚ)) (k : String) (gk : NDGrid)
    (hnd : ((first :: rest).map Prod.fst).Nodup)
    (hsh : ∀ p ∈ first :: rest, p.2.rows = first.2.rows ∧ p.2.cols = first.2.cols)
    (hk : (k, gk) ∈ first :: rest)
    (hwk : dlookup weights k = some 1)
    (hw0 : ∀ p ∈ first :: rest, p.1 ≠ k → dlookup weights p.1 = some 0) :
    ∃ g, aggregate (first :: rest) weights = .ok g ∧
      ∀ i j, i < first.2.rows → j < first.2.cols → getCell g i j = getCell gk i j := by
  have hcov : ∀ p ∈ first :: rest, (dlookup weights p.1).isSome := by
    intro p hp
    by_cases h : p.1 = k
    · rw [h, hwk]; rfl
    · rw [hw0 p hp h]; rfl
  obtain ⟨g, hok, _, _, hcells⟩ :=
    aggLoop_linear weights (first :: rest) (zeros first.2.rows first.2.cols) hsh hcov
  refine ⟨g, hok, fun i j hi hj => ?_⟩
  rw [hcells i j hi hj, getCell_zeros, zero_add,
    sum_single_weight weights k gk i j (first :: rest) hnd hk hwk hw0]

/-- Witness for C5: weight 1.0 on layer A, 0.0 on layer B. -/
theorem aggregate_identity_weight_witness :
    ∃ g, aggregate [("A", (⟨1, 1, [[7]]⟩ : NDGrid)), ("B", (⟨1, 1, [[9]]⟩ : NDGrid))]
        [("A", 1), ("B", 0)] = .ok g ∧
      ∀ i j, i < (("A", (⟨1, 1, [[7]]⟩ : NDGrid))).2.rows →
        j < (("A", (⟨1, 1, [[7]]⟩ : NDGrid))).2.cols →
        getCell g i j = getCell (⟨1, 1, [[7]]⟩ : NDGrid) i j :=
  aggregate_identity_weight ("A", ⟨1, 1, [[7]]⟩) [("B", ⟨1, 1, [[9]]⟩)]
    [("A", 1), ("B", 0)] "A" ⟨1, 1, [[7]]⟩
    (by decide) (by decide) (by decide) (by decide) (by decide)

/-- C7: a batch of three distinctly named sources with exactly one corrupt
one leaves a two-entry layer store, and exactly one decode error is
reported; the corrupt source never aborts the other loads. -/
theorem load_partial_failure (a b c : UploadedFile)
    (hab : a.name ≠ b.name) (hac : a.name ≠ c.name) (hbc : b.name ≠ c.name)
    (hone :
      (a.content = none ∧ b.content.isSome ∧ c.content.isSome) ∨
      (a.content.isSome ∧ b.content = none ∧ c.content.isSome) ∨
      (a.content.isSome ∧ b.content.isSome ∧ c.content = none)) :
    (loadBatch [a, b, c]).2.length = 1 ∧ (loadBatch [a, b, c]).1.length = 2 := by
  rcases hone with ⟨ha, hb, hc⟩ | ⟨ha, hb, hc⟩ | ⟨ha, hb, hc⟩
  · obtain ⟨⟨gb, mb⟩, hb'⟩ := Option.isSome_iff_exists.mp hb
    obtain ⟨⟨gc, mc⟩, hc'⟩ := Option.isSome_iff_exists.mp hc
    simp [loadBatch, loadLoop, load_raster, ha, hb', hc', dictInsert, hbc]
  · obtain ⟨⟨ga, ma⟩, ha'⟩ := Option.isSome_iff_exists.mp ha
    obtain ⟨⟨gc, mc⟩, hc'⟩ := Option.isSome_iff_exists.mp hc
    simp [loadBatch, loadLoop, load_raster, ha', hb, hc', dictInsert, hac]
  · obtain ⟨⟨ga, ma⟩, ha'⟩ := Option.isSome_iff_exists.mp ha
    obtain ⟨⟨gb, mb⟩, hb'⟩ := Option.isSome_iff_exists.mp hb
    simp [loadBatch, loadLoop, load_raster, ha', hb', hc, dictInsert, hab]

/-- Witness for C7: sources x, y, z where y is corrupt. -/
theorem load_partial_failure_witness :
    (loadBatch [⟨"x", some (zeros 1 1, sampleMeta)⟩, ⟨"y", none⟩,
        ⟨"z", some (zeros 1 1, sampleMeta)⟩]).2.length = 1 ∧
      (loadBatch [⟨"x", some (zeros 1 1, sampleMeta)⟩, ⟨"y", none⟩,
        ⟨"z", some (zeros 1 1, sampleMeta)⟩]).1.length = 2 :=
  load_partial_failure ⟨"x", some (zeros 1 1, sampleMeta)⟩ ⟨"y", none⟩
    ⟨"z", some (zeros 1 1, sampleMeta)⟩
    (by decide) (by decide) (by decide) (by decide)

/-- C9: when the user keeps every default, each of the n layers gets the
weight 1/n, and this default assignment always passes the sum-to-one
gate: n copies of 1/n sum to exactly 1 in the rational model, which is
within the isclose tolerance for every n ≥ 1. -/
theorem default_weights_valid (store : List (String × NDGrid)) (h : store ≠ []) :
    (∀ p ∈ defaultWeights store, p.2 = 1 / (store.length : ℚ)) ∧
      validate (defaultWeights store) = .ok () := by
  have hlen : (store.length : ℚ) ≠ 0 := by
    simpa using h
  constructor
  · intro p hp
    obtain ⟨q, _, hq⟩ := List.mem_map.mp hp
    rw [← hq]
    rfl
  · have hsum : sumWeights (defaultWeights store) = 1 := by
      unfold sumWeights defaultWeights defaultWeight
      rw [List.map_map]
      have : ((fun p : String × ℚ => p.2) ∘ fun p : String × NDGrid =>
          (p.1, 1 / (store.length : ℚ))) = fun _ => 1 / (store.length : ℚ) := rfl
      rw [this, List.map_const', List.sum_replicate, nsmul_eq_mul, mul_one_div,
        div_self hlen]
    unfold validate npIscloseOne
    rw [hsum]
    norm_num [ATOL, RTOL]

/-- Witness for C9 on a one-layer store. -/
theorem default_weights_valid_witness :
    (∀ p ∈ defaultWeights [("A", zeros 1 1)],
        p.2 = 1 / (([("A", zeros 1 1)] : List (String × NDGrid)).length : ℚ)) ∧
      validate (defaultWeights [("A", zeros 1 1)]) = .ok () :=
  default_weights_valid [("A", zeros 1 1)] (by decide)

theorem loadLoop_store_length_mono :
    ∀ (files : List UploadedFile) (s : List (String × NDGrid)) (e : List String),
      s.length ≤ (loadLoop s e files).1.length := by
  intro files
  induction files with
  | nil => intro s e; exact Nat.le_refl _
  | cons f rest ih =>
    intro s e
    cases hf : load_raster f with
    | ok g =>
      calc s.length ≤ (dictInsert s f.name g).length := by
            unfold dictInsert
            split
            · simp
            · simp
        _ ≤ _ := by
            have := ih (dictInsert s f.name g) e
            simpa [loadLoop, hf] using this
    | error n =>
      have := ih s (e ++ [n])
      simpa [loadLoop, hf] using this

/-- C10: the export step reads its reference metadata from the first file
in upload order, not from a loaded layer: when the first uploaded source
fails to decode but every later one decodes, export fails with the error
naming that first source even though the layer store is nonempty. -/
theorem export_uses_first_uploaded (f : UploadedFile) (rest : List UploadedFile)
    (g : NDGrid) (hf : f.content = none)
    (hrest : ∀ r ∈ rest, r.content.isSome) (hne : rest ≠ []) :
    exportStep (f :: rest) g = .error (.metadataUnavailable f.name) ∧
      1 ≤ (loadBatch (f :: rest)).1.length := by
  constructor
  · simp [exportStep, hf]
  · obtain ⟨r0, rest', rfl⟩ : ∃ r0 rest', rest = r0 :: rest' := by
      cases rest with
      | nil => exact absurd rfl hne
      | cons r0 rest' => exact ⟨r0, rest', rfl⟩
    obtain ⟨⟨g0, m0⟩, hr0⟩ :=
      Option.isSome_iff_exists.mp (hrest r0 (List.mem_cons_self _ _))
    have h1 : (loadBatch (f :: r0 :: rest')).1 =
        (loadLoop (dictInsert [] r0.name g0) [f.name] rest').1 := by
      simp [loadBatch, loadLoop, load_raster, hf, hr0]
    rw [h1]
    have h2 : (dictInsert [] r0.name g0).length = 1 := by
      simp [dictInsert]
    calc 1 = (dictInsert [] r0.name g0).length := h2.symm
      _ ≤ _ := loadLoop_store_length_mono rest' _ _

/-- Witness for C10: a corrupt first source followed by one good source. -/
theorem export_uses_first_uploaded_witness :
    exportStep [⟨"bad", none⟩, ⟨"good", some (zeros 1 1, sampleMeta)⟩] (zeros 1 1) =
        .error (.metadataUnavailable (⟨"bad", none⟩ : UploadedFile).name) ∧
      1 ≤ (loadBatch [⟨"bad", none⟩, ⟨"good", some (zeros 1 1, sampleMeta)⟩]).1.length :=
  export_uses_first_uploaded ⟨"bad", none⟩ [⟨"good", some (zeros 1 1, sampleMeta)⟩]
    (zeros 1 1) (by decide) (by decide) (by decide)

end SitingTool
